import Mathlib

/-!
Verification development for the Reality NFT retrieval tools
(query construction, decode pipeline, ownership filtering, and the
advanced-search ordering/pagination algorithm).

The TypeScript sources are embedded shallowly:
  * pure functions become Lean functions over `String`, `List`, `Option`;
  * JS objects (`Record<string, T>`) become insertion-ordered association
    lists with JS assignment semantics (`recSet`);
  * JS truthiness of optional strings/arrays is modelled explicitly;
  * the external store client, and the external codecs used by
    `decodeAndDecompressData` (base64, gzip, UTF-8, JSON), are parameters
    of the model: they are collaborators, not code of this repository;
  * a thrown-and-caught per-entity error is modelled by `Option`/`none`;
  * property lookup on a JS object literal is modelled as own-property
    lookup (the prototype chain is not modelled).
-/

namespace RealityNFT

/-! ## Constants (from constants.ts) -/

def SYS_FILE_STEM : String := "_sys_file_stem"
def SYS_DATA : String := "_sys_data"
def SYS_COMPRESSION_METHOD : String := "_sys_compression_method"
def SYS_VERSION : String := "_sys_version"
def SYS_STATUS : String := "_sys_status"
def SYS_FILE_TYPE : String := "_sys_file_type"
def SYS_CATEGORY : String := "_sys_category"

def ATTR_TYPE : String := "type"
def ATTR_SETTLEMENT : String := "settlement"
def ATTR_COUNTRY_NAME : String := "country_name"

def GZIP_TAG : String := "gzip"
def STATUS_BOTH : String := "both"
def STATUS_PROD : String := "prod"
def FILE_TYPE_JSON : String := "json"

def SPECIAL_VENUES : String := "REALITY_NFT_SPECIAL_VENUES"

/-- ENTITY_TYPE_PRIORITY from constants.ts: `[country, city, building]`. -/
def ENTITY_TYPE_PRIORITY : List String := ["country", "city", "building"]

/-! ## JS-semantics helpers -/

/-- Truthiness of an optional JS string: `undefined`/`null` and `""` are falsy. -/
def jsTruthyS : Option String → Bool
  | some s => s ≠ ""
  | none => false

/-- Character-wise lowercasing, the embedding of `String.prototype.toLowerCase`
for the ASCII data this system handles. -/
def lowerStr (s : String) : String := String.mk (s.data.map Char.toLower)

/-- Insertion-ordered association list standing for a JS `Record<string, T>`
object whose keys are set by assignment. -/
abbrev Record (α : Type) := List (String × α)

/-- The raw key sequence of the association list, in insertion order.  This
is the record's own-key multiset (unique by construction when built through
`recSet`); it is NOT the JS `Object.keys` enumeration order — see
`jsObjectKeys` for that. -/
def recKeys {α : Type} (r : Record α) : List String := r.map Prod.fst

/-- Deduplicating append: each key of the second list is appended to the
first unless already present.  Used both to model key enumeration and to
phrase the ordering policy of orderResultsByType. -/
def dedupAppend (acc ks : List String) : List String :=
  ks.foldl (fun a k => if k ∈ a then a else a ++ [k]) acc

/-- The decimal value of a digit string. -/
def digitsToNat (l : List Char) : Nat :=
  l.foldl (fun n c => n * 10 + (c.toNat - '0'.toNat)) 0

/-- An array-index-like property key in the sense of the JS specification: a
canonical decimal string (no leading zero unless exactly `"0"`) whose value
is below 2^32 - 1. -/
def isArrayIndexKey (s : String) : Bool :=
  match s.data with
  | [] => false
  | c :: cs =>
    (c :: cs).all Char.isDigit && (c ≠ '0' || cs = [])
      && digitsToNat (c :: cs) < 4294967295

/-- The numeric value of an array-index-like key. -/
def keyNat (s : String) : Nat := digitsToNat s.data

/-- Insertion into a list sorted by `keyNat` ascending. -/
def insertByNat (x : String) : List String → List String
  | [] => [x]
  | y :: ys => if keyNat x ≤ keyNat y then x :: y :: ys else y :: insertByNat x ys

/-- Sorting by `keyNat` ascending (insertion sort). -/
def sortByNat : List String → List String
  | [] => []
  | x :: xs => insertByNat x (sortByNat xs)

/-- The JS `Object.keys` enumeration of a record: every own key once, with
the array-index-like keys first in ascending numeric order, then the
remaining string keys in insertion order. -/
def jsObjectKeys {α : Type} (r : Record α) : List String :=
  let ks := dedupAppend [] (recKeys r)
  sortByNat (ks.filter (fun s => isArrayIndexKey s))
    ++ ks.filter (fun s => ! isArrayIndexKey s)

/-- JS object assignment `r[k] = v`: updates in place if `k` is present
(keeping its position), otherwise appends. -/
def recSet {α : Type} (r : Record α) (k : String) (v : α) : Record α :=
  if k ∈ recKeys r then r.map (fun kv => if kv.1 = k then (k, v) else kv)
  else r ++ [(k, v)]

/-- JS property read `r[k]`, `undefined` becoming `none`. -/
def recGet? {α : Type} (r : Record α) (k : String) : Option α :=
  (r.find? (fun kv => kv.1 = k)).map Prod.snd

/-! ## Decoded structured values (JSON-equivalent) -/

/-- Closed structured-value variant for decoded payloads. -/
inductive JValue where
  | jnull : JValue
  | jbool : Bool → JValue
  | jnum : Int → JValue
  | jstr : String → JValue
  | jarr : List JValue → JValue
  | jobj : List (String × JValue) → JValue

/-- Field access `v.k` on a decoded object (`undefined` for non-objects). -/
def jGetField (v : JValue) (k : String) : Option JValue :=
  match v with
  | JValue.jobj fields => (fields.find? (fun kv => kv.1 = k)).map Prod.snd
  | _ => none

/-! ## QueryBuilder (QueryBuilder.ts) -/

structure QueryParams where
  tokenIds : Option (List String) := none
  sysCategory : String
  tokenTypes : Option (List String) := none
  tokenCountry : Option String := none
  tokenKeywords : Option (List String) := none
  tokenSettlement : Option String := none

/-- getAttributeKey: `attr_` prefix for every category except special venues. -/
def getAttributeKey (sysCategory baseKey : String) : String :=
  if sysCategory ≠ SPECIAL_VENUES then "attr_" ++ baseKey else baseKey

/-- createKeywordPattern: each character becomes `[Uu]`. -/
def createKeywordPattern (keyword : String) : String :=
  String.join (keyword.data.map (fun c =>
    "[" ++ String.mk [c.toUpper] ++ String.mk [c.toLower] ++ "]"))

/-- buildArrayCondition: nothing for `[]`, plain equality for one value,
a parenthesized `||`-group for more. -/
def buildArrayCondition (key : String) : List String → String
  | [] => ""
  | [v] => " && " ++ key ++ " = \"" ++ v ++ "\""
  | vs => " && (" ++
      String.intercalate " || " (vs.map (fun v => key ++ " = \"" ++ v ++ "\"")) ++ ")"

/-- The fixed leading clause of every query built by buildQuery. -/
def baseQuery : String :=
  SYS_VERSION ++ " >= 1 && (" ++ SYS_STATUS ++ " = \"" ++ STATUS_BOTH ++ "\" || " ++
    SYS_STATUS ++ " = \"" ++ STATUS_PROD ++ "\") && " ++
    SYS_FILE_TYPE ++ " = \"" ++ FILE_TYPE_JSON ++ "\""

/-- buildQuery from QueryBuilder.ts, clause by clause in source order. -/
def buildQuery (p : QueryParams) : String :=
  let q := baseQuery
  let q := if p.sysCategory ≠ "" then
      q ++ " && " ++ SYS_CATEGORY ++ " = \"" ++ p.sysCategory ++ "\"" else q
  let q := match p.tokenIds with
    | some ids => if ids.length > 0 then q ++ buildArrayCondition SYS_FILE_STEM ids else q
    | none => q
  let q := match p.tokenTypes with
    | some ts => if ts.length > 0 then
        q ++ buildArrayCondition (getAttributeKey p.sysCategory ATTR_TYPE) ts else q
    | none => q
  let q := match p.tokenCountry with
    | some c => if c ≠ "" then
        q ++ " && " ++ getAttributeKey p.sysCategory ATTR_COUNTRY_NAME ++ " = \"" ++ c ++ "\""
      else q
    | none => q
  let q := match p.tokenKeywords with
    | some kws => if kws.length > 0 then
        let conds := kws.map (fun kw => "name ~ \"*" ++ createKeywordPattern kw ++ "*\"")
        let kq := if conds.length = 1 then conds.headI
          else "(" ++ String.intercalate " || " conds ++ ")"
        q ++ " && " ++ kq
      else q
    | none => q
  let q := match p.tokenSettlement with
    | some s => if s ≠ "" then
        q ++ " && " ++ getAttributeKey p.sysCategory ATTR_SETTLEMENT ++ " = \"" ++ s ++ "\""
      else q
    | none => q
  q

structure AdvancedQueryParams where
  sysCategory : String
  tokenTypes : Option (List String) := none
  tokenCountry : Option String := none
  tokenKeywords : Option (List String) := none
  tokenSettlement : Option String := none
  excludeTokenIds : Option (List String) := none

/-- buildAdvancedQuery from QueryBuilder.ts: when both country and settlement
are truthy, the base query drops types, country and settlement, and a
two-branch disjunction is appended; exclusions follow as `!=` clauses. -/
def buildAdvancedQuery (p : AdvancedQueryParams) : String :=
  let hasCS := jsTruthyS p.tokenCountry && jsTruthyS p.tokenSettlement
  let q := buildQuery
    { tokenIds := none
      sysCategory := p.sysCategory
      tokenTypes := if hasCS then none else p.tokenTypes
      tokenCountry := if hasCS then none else p.tokenCountry
      tokenKeywords := p.tokenKeywords
      tokenSettlement := if hasCS then none else p.tokenSettlement }
  let q := if hasCS then
      q ++ " && (( " ++ getAttributeKey p.sysCategory ATTR_TYPE ++ " = \"country\" && " ++
        getAttributeKey p.sysCategory ATTR_COUNTRY_NAME ++ " = \"" ++
        (p.tokenCountry.getD "") ++ "\") || (" ++
        getAttributeKey p.sysCategory ATTR_TYPE ++ " = \"building\" && " ++
        getAttributeKey p.sysCategory ATTR_SETTLEMENT ++ " = \"" ++
        (p.tokenSettlement.getD "") ++ "\"))"
    else q
  let q := match p.excludeTokenIds with
    | some ex => if ex.length > 0 then
        let conds := ex.map (fun t => SYS_FILE_STEM ++ " != \"" ++ t ++ "\"")
        let exq := if conds.length = 1 then conds.headI
          else "(" ++ String.intercalate " && " conds ++ ")"
        q ++ " && " ++ exq
      else q
    | none => q
  q

/-! ## DataProcessor (DataProcessor.ts)

The external codecs (base64 `atob`, zlib `gunzipSync`, `TextDecoder`,
`JSON.parse`) are collaborators of the repository, not its code; they enter
the model as the fields of `Codecs`.  A codec returning `none` models the
library call throwing; `decodeAndDecompressData` then fails as a whole
(`none` models the raised `DataProcessingError`). -/

structure Codecs where
  atob : String → Option (List Nat)
  gunzip : List Nat → Option (List Nat)
  utf8Decode : List Nat → String
  jsonParse : String → Option JValue

/-- The gzip test `compressionMethod?.toLowerCase() === "gzip"`. -/
def isGzipTag (compressionMethod : Option String) : Bool :=
  match compressionMethod with
  | some m => lowerStr m = GZIP_TAG
  | none => false

/-- decodeAndDecompressData: base64-decode, conditionally gunzip, decode as
text, parse. -/
def decodeAndDecompressData (cx : Codecs) (base64Data : String)
    (compressionMethod : Option String) : Option JValue :=
  match cx.atob base64Data with
  | none => none
  | some compressedBytes =>
    match (if isGzipTag compressionMethod then cx.gunzip compressedBytes
           else some compressedBytes) with
    | none => none
    | some bytes => cx.jsonParse (cx.utf8Decode bytes)

/-- One string key-value pair of entity metadata. -/
structure AnnKV where
  key : String
  value : String
deriving DecidableEq

/-- extractAnnotations from DataProcessor.ts: keep the pairs whose key is
requested; a later pair with the same key overwrites the value. -/
def extractAnns (anns : List AnnKV) (keys : List String) : Record String :=
  anns.foldl (fun acc ann =>
    if ann.key ∈ keys then recSet acc ann.key ann.value else acc) []

/-- extractTypeFromData: a direct `type` field for special venues, otherwise
the `value` of the `attributes` entry whose `trait_type` is `"type"`. -/
def extractTypeFromData (data : JValue) (sysCategory : String) : Option String :=
  if sysCategory = SPECIAL_VENUES then
    match jGetField data "type" with
    | some (JValue.jstr s) => some s
    | _ => none
  else
    match jGetField data "attributes" with
    | some (JValue.jarr attrs) =>
      match attrs.find? (fun a =>
          match jGetField a "trait_type" with
          | some (JValue.jstr t) => t = ATTR_TYPE
          | _ => false) with
      | some a =>
        match jGetField a "value" with
        | some (JValue.jstr s) => some s
        | _ => none
      | none => none
    | _ => none

/-! ## Service model (RealityNFTService) -/

structure Entity where
  entityKey : String
deriving DecidableEq

structure EntityMetadata where
  owner : Option String := none
  strAnns : List AnnKV := []
deriving DecidableEq

structure RealityNFTConfig where
  chainId : String := ""
  rpcUrl : String := ""
  wsUrl : String := ""
  targetOwner : String
  privateKey : String := ""
deriving DecidableEq

/-- normalizeAddress from utils.ts. -/
def normalizeAddress (address : String) : String := lowerStr address

/-- isOwnedByTargetOwner: a falsy owner field excludes the entity, otherwise
owners are compared case-normalized. -/
def isOwnedByTargetOwner (cfg : RealityNFTConfig) (md : EntityMetadata) : Bool :=
  match md.owner with
  | none => false
  | some o =>
    if o = "" then false
    else normalizeAddress o = normalizeAddress cfg.targetOwner

/-- The external store client: executes a filter expression, and fetches the
metadata of one entity.  Both are modelled as total functions of the
environment. -/
structure ClientModel where
  queryEntities : String → List Entity
  getEntityMetaData : String → EntityMetadata

/-- The service environment: client handle, validated configuration, and the
decode pipeline at the service boundary.  `decodeFn` stands for
`dataProcessor.decodeAndDecompressData`; `none` models the thrown
`DataProcessingError` that the per-entity try/catch swallows. -/
structure ServiceEnv where
  client : ClientModel
  config : RealityNFTConfig
  decodeFn : String → Option String → Option JValue

abbrev Cache := Record JValue

/-- getCacheKey: the composite key `category:tokenId`. -/
def getCacheKey (category tokenId : String) : String := category ++ ":" ++ tokenId

/-- The JS expression `x || null` on an optional string. -/
def orNull (o : Option String) : Option String := if jsTruthyS o then o else none

structure ProcessedEntity where
  tokenId : String
  data : JValue

/-- processEntity (the getData path): ownership check, then `_sys_data`
presence check, then decode; every failure yields `null` with the cache
untouched, success caches under the expected tokenId. -/
def processEntity (env : ServiceEnv) (sysCategory expectedTokenId : String)
    (cache : Cache) (e : Entity) : Option JValue × Cache :=
  let md := env.client.getEntityMetaData e.entityKey
  if ¬ isOwnedByTargetOwner env.config md then (none, cache)
  else
    let anns := extractAnns md.strAnns [SYS_DATA, SYS_COMPRESSION_METHOD]
    match recGet? anns SYS_DATA with
    | none => (none, cache)
    | some dv =>
      if dv = "" then (none, cache)
      else
        match env.decodeFn dv (orNull (recGet? anns SYS_COMPRESSION_METHOD)) with
        | none => (none, cache)
        | some v => (some v, recSet cache (getCacheKey sysCategory expectedTokenId) v)

/-- processEntityForMultiple (the batch and advanced paths): additionally
requires a truthy `_sys_file_stem` tokenId, and caches under it. -/
def processEntityForMultiple (env : ServiceEnv) (sysCategory : String)
    (cache : Cache) (e : Entity) : Option ProcessedEntity × Cache :=
  let md := env.client.getEntityMetaData e.entityKey
  if ¬ isOwnedByTargetOwner env.config md then (none, cache)
  else
    let anns := extractAnns md.strAnns [SYS_FILE_STEM, SYS_DATA, SYS_COMPRESSION_METHOD]
    match recGet? anns SYS_FILE_STEM, recGet? anns SYS_DATA with
    | some tid, some dv =>
      if tid = "" ∨ dv = "" then (none, cache)
      else
        match env.decodeFn dv (orNull (recGet? anns SYS_COMPRESSION_METHOD)) with
        | none => (none, cache)
        | some v => (some ⟨tid, v⟩, recSet cache (getCacheKey sysCategory tid) v)
    | _, _ => (none, cache)

/-- The per-entity batch processing of a list of entities, collecting the
per-entity outcomes positionally and threading the cache. -/
def processMany (env : ServiceEnv) (sysCategory : String) (cache : Cache) :
    List Entity → List (Option ProcessedEntity) × Cache
  | [] => ([], cache)
  | e :: rest =>
    let r := processEntityForMultiple env sysCategory cache e
    let rec' := processMany env sysCategory r.2 rest
    (r.1 :: rec'.1, rec'.2)

/-- The result-object building loop `if (result) results[result.tokenId] = result.data`. -/
def buildResultsRecord (rs : List (Option ProcessedEntity)) : Record JValue :=
  rs.foldl (fun acc r =>
    match r with
    | some pe => recSet acc pe.tokenId pe.data
    | none => acc) []

/-- `Array.prototype.slice(start, stop)` for non-negative indices. -/
def jsSlice {α : Type} (items : List α) (start : Nat) (stop : Option Nat) : List α :=
  match stop with
  | none => items.drop start
  | some e => (items.take e).drop start

/-- applySkipAndLimit from RealityNFTService: clamps a negative skip, treats a
non-positive limit as no limit, and force-includes a truthy required item by
evicting the last slice element when the slice is at capacity.  `isTruthy`
carries the JS truthiness test of the element type. -/
def applySkipAndLimit {α : Type} [DecidableEq α] (isTruthy : α → Bool)
    (items : List α) (skip : Int) (limit : Option Int)
    (requiredItem : Option α) : List α :=
  let startIndex : Nat := (max 0 skip).toNat
  let stop : Option Nat := match limit with
    | some l => if l > 0 then some (startIndex + l.toNat) else none
    | none => none
  let result := jsSlice items startIndex stop
  match requiredItem with
  | some r =>
    if isTruthy r ∧ r ∉ result then
      let result := match limit with
        | some l => if l ≠ 0 ∧ (result.length : Int) ≥ l then result.dropLast else result
        | none => result
      result ++ [r]
    else result
  | none => result

structure SearchParams where
  sysCategory : String
  tokenTypes : Option (List String) := none
  tokenCountry : Option String := none
  tokenKeywords : Option (List String) := none
  tokenSettlement : Option String := none
  skip : Int := 0
  limit : Option Int := none

/-- The query both getAllData paths build first (`tokenCategories` is passed
by the service but never read by buildQuery, so it does not appear). -/
def standardQueryOf (p : SearchParams) : String :=
  buildQuery
    { tokenIds := none
      sysCategory := p.sysCategory
      tokenTypes := p.tokenTypes
      tokenCountry := p.tokenCountry
      tokenKeywords := p.tokenKeywords
      tokenSettlement := p.tokenSettlement }

structure GetAllDataResult where
  data : Record JValue
  totalCount : Nat
  referenceId : Option String := none
  referenceType : Option String := none

/-- performStandardSearch: slice the raw entity list, process the slice,
report the raw list's length as totalCount. -/
def performStandardSearch (env : ServiceEnv) (p : SearchParams) (cache : Cache) :
    GetAllDataResult × Cache :=
  let entities := env.client.queryEntities (standardQueryOf p)
  let processed := applySkipAndLimit (fun _ => true) entities p.skip p.limit none
  let pm := processMany env p.sysCategory cache processed
  ({ data := buildResultsRecord pm.1, totalCount := entities.length }, pm.2)

/-! ## Advanced search (RealityNFTService, advanced path) -/

structure EntityInfo where
  entity : Entity
  metadata : EntityMetadata
  tokenId : Option String := none
  attrType : Option String := none
  attrSettlement : Option String := none
  attrCountryName : Option String := none
deriving DecidableEq

/-- extractEntityInformation for one entity: scan the annotation list once,
a later matching pair overwriting an earlier one, with the switch cases in
source order. -/
def extractInfoFor (env : ServiceEnv) (sysCategory : String) (e : Entity) : EntityInfo :=
  let md := env.client.getEntityMetaData e.entityKey
  let typeKey := getAttributeKey sysCategory ATTR_TYPE
  let settlementKey := getAttributeKey sysCategory ATTR_SETTLEMENT
  let countryNameKey := getAttributeKey sysCategory ATTR_COUNTRY_NAME
  md.strAnns.foldl (fun info ann =>
    if ann.key = SYS_FILE_STEM then { info with tokenId := some ann.value }
    else if ann.key = typeKey then { info with attrType := some ann.value }
    else if ann.key = settlementKey then { info with attrSettlement := some ann.value }
    else if ann.key = countryNameKey then { info with attrCountryName := some ann.value }
    else info)
    { entity := e, metadata := md }

/-- The scan of selectPriorityEntity over ENTITY_TYPE_PRIORITY. -/
def findByPriority (infos : List EntityInfo) : List String → Option EntityInfo
  | [] => none
  | t :: ts =>
    match infos.find? (fun i => i.attrType = some t) with
    | some f => some f
    | none => findByPriority infos ts

/-- selectPriorityEntity: first entity matching `[country, city, building]`
in that order, else the first entity of the list, else nothing. -/
def selectPriorityEntity (infos : List EntityInfo) : Option EntityInfo :=
  match findByPriority infos ENTITY_TYPE_PRIORITY with
  | some f => some f
  | none => infos.head?

/-- The related-entity query fetchRelatedEntities builds, branching on the
anchor's annotation-derived type; `none` when no branch matches, in which
case no query is issued at all. -/
def relatedQueryFor (sysCategory : String) (info : EntityInfo) : Option String :=
  match info.attrType with
  | some t =>
    if t = "building" then
      let keywords :=
        ([info.attrSettlement, info.attrCountryName].filterMap id).filter (fun s => s ≠ "")
      some (buildAdvancedQuery
        { sysCategory := sysCategory
          tokenTypes := some ["city", "country"]
          tokenKeywords := some keywords })
    else if t = "country" then
      some (buildAdvancedQuery
        { sysCategory := sysCategory
          tokenTypes := some ["city", "building"]
          tokenCountry := info.attrCountryName })
    else if t = "city" then
      some (buildAdvancedQuery
        { sysCategory := sysCategory
          tokenTypes := some ["building", "country"]
          tokenSettlement := info.attrSettlement
          tokenCountry := info.attrCountryName })
    else none
  | none => none

/-- fetchRelatedEntities: run the related query when there is one. -/
def fetchRelatedEntities (env : ServiceEnv) (sysCategory : String)
    (info : EntityInfo) : List Entity :=
  match relatedQueryFor sysCategory info with
  | some q => env.client.queryEntities q
  | none => []

/-- The three buckets of categorizeEntitiesByType. -/
structure Categorized where
  building : Record JValue := []
  city : Record JValue := []
  country : Record JValue := []

/-- Bucket selection `categorized[entityAttrType]` for a recognized type. -/
def bucketOf (c : Categorized) (t : String) : Record JValue :=
  if t = "building" then c.building
  else if t = "city" then c.city
  else c.country

/-- One step of the categorization loop: a decoded entity lands in the bucket
named by its payload-derived type; a falsy or unrecognized type is dropped. -/
def categorizeStep (sysCategory : String) (c : Categorized)
    (r : Option ProcessedEntity) : Categorized :=
  match r with
  | some pe =>
    match extractTypeFromData pe.data sysCategory with
    | some t =>
      if t = "building" then { c with building := recSet c.building pe.tokenId pe.data }
      else if t = "city" then { c with city := recSet c.city pe.tokenId pe.data }
      else if t = "country" then { c with country := recSet c.country pe.tokenId pe.data }
      else c
    | none => c
  | none => c

/-- categorizeEntitiesByType: process all entities, then bucket the
successful ones by payload-derived type. -/
def categorizeEntitiesByType (env : ServiceEnv) (sysCategory : String)
    (cache : Cache) (es : List Entity) : Categorized × Cache :=
  let pm := processMany env sysCategory cache es
  (pm.1.foldl (categorizeStep sysCategory) {}, pm.2)

/-- One key of one bucket in the ordering loop: a key already present is
skipped, otherwise it is appended and its value copied over. -/
def orderStep (typeData : Record JValue)
    (a : List String × Record JValue) (k : String) : List String × Record JValue :=
  if k ∈ a.1 then a
  else (a.1 ++ [k], recSet a.2 k ((recGet? typeData k).getD JValue.jnull))

/-- One bucket of the ordering loop, iterating `Object.keys(typeData)` — the
JS enumeration order, which puts numeric token-id keys in ascending numeric
order, not store return order. -/
def orderBucket (c : Categorized) (a : List String × Record JValue)
    (t : String) : List String × Record JValue :=
  (jsObjectKeys (bucketOf c t)).foldl (orderStep (bucketOf c t)) a

/-- The seeding of the ordered output with the anchor: pushed only when the
anchor's tokenId is truthy and its own processing succeeded. -/
def initPair (firstEntityData : Option ProcessedEntity)
    (firstEntityTokenId : Option String) : List String × Record JValue :=
  match firstEntityTokenId, firstEntityData with
  | some tid, some pe =>
    if tid = "" then ([], []) else ([tid], recSet [] tid pe.data)
  | _, _ => ([], [])

/-- The own property names of `Object.prototype`: a plain-object lookup
`orderMap[t]` finds these inherited members when `t` is none of the map's
own keys, yielding a truthy non-array value. -/
def OBJECT_PROTO_KEYS : List String :=
  ["constructor", "hasOwnProperty", "isPrototypeOf", "propertyIsEnumerable",
   "toLocaleString", "toString", "valueOf", "__defineGetter__",
   "__defineSetter__", "__lookupGetter__", "__lookupSetter__", "__proto__"]

/-- Outcome of the JS lookup `attrType ? orderMap[attrType] : null`. -/
inductive RotationLookup where
  | rot : List String → RotationLookup
  | nullish : RotationLookup
  | inherited : RotationLookup

/-- The rotation lookup of orderResultsByType: a falsy type yields null; one
of the three own keys yields its rotation array; a name inherited from
`Object.prototype` yields that truthy non-array member; anything else is
undefined. -/
def orderListOf (attrType : Option String) : RotationLookup :=
  match attrType with
  | some t =>
    if t = "" then RotationLookup.nullish
    else if t = "building" then RotationLookup.rot ["building", "city", "country"]
    else if t = "country" then RotationLookup.rot ["country", "city", "building"]
    else if t = "city" then RotationLookup.rot ["city", "building", "country"]
    else if t ∈ OBJECT_PROTO_KEYS then RotationLookup.inherited
    else RotationLookup.nullish
  | none => RotationLookup.nullish

/-- orderResultsByType: the anchor first (when truthy and decoded), then the
buckets in the rotation `orderMap` names for the anchor's type, each key
appended only if not already present; a falsy or undefined type appends
nothing beyond the anchor.  When the lookup lands on an inherited
`Object.prototype` member, `for (const type of order)` throws a TypeError
(the value is truthy but not iterable), which escapes this function and is
caught only by getAllData's catch, producing `{data:{}, totalCount:0}` while
the cache keeps all earlier writes; since the sole caller converts the
throw into exactly the result an empty ordered key list produces, the model
renders that case as the empty pair. -/
def orderResultsByType (firstEntityData : Option ProcessedEntity)
    (firstEntityTokenId : Option String) (attrType : Option String)
    (c : Categorized) : List String × Record JValue :=
  match orderListOf attrType with
  | RotationLookup.rot ord =>
    ord.foldl (orderBucket c) (initPair firstEntityData firstEntityTokenId)
  | RotationLookup.nullish => initPair firstEntityData firstEntityTokenId
  | RotationLookup.inherited => ([], [])

/-- The final page assembly `for (const key of processedKeys)
finalResults[key] = allData[key]`. -/
def buildFinalResults (allData : Record JValue) (ks : List String) : Record JValue :=
  ks.foldl (fun acc k => recSet acc k ((recGet? allData k).getD JValue.jnull)) []

/-- The initial query execution shared by both getAllData paths. -/
def advInitialEntities (env : ServiceEnv) (p : SearchParams) : List Entity :=
  env.client.queryEntities (standardQueryOf p)

/-- The anchor performAdvancedSearch selects from the initial result set. -/
def advAnchor (env : ServiceEnv) (p : SearchParams) : Option EntityInfo :=
  selectPriorityEntity ((advInitialEntities env p).map (extractInfoFor env p.sysCategory))

/-- The ordered key list and key-indexed data performAdvancedSearch builds for
a given anchor, with the cache threaded through the related batch and then
the anchor's own processing. -/
def advOrderedFor (env : ServiceEnv) (p : SearchParams) (cache : Cache)
    (firstInfo : EntityInfo) : (List String × Record JValue) × Cache :=
  let cat := categorizeEntitiesByType env p.sysCategory cache
    (fetchRelatedEntities env p.sysCategory firstInfo)
  let fd := processEntityForMultiple env p.sysCategory cat.2 firstInfo.entity
  (orderResultsByType fd.1 firstInfo.tokenId firstInfo.attrType cat.1, fd.2)

/-- performAdvancedSearch: initial query, anchor selection, related fetch and
categorization, ordering, then skip/limit applied to the ordered key list
with no required item supplied. -/
def performAdvancedSearch (env : ServiceEnv) (p : SearchParams) (cache : Cache) :
    GetAllDataResult × Cache :=
  let initialEntities := advInitialEntities env p
  if initialEntities.length = 0 then ({ data := [], totalCount := 0 }, cache)
  else
    match selectPriorityEntity (initialEntities.map (extractInfoFor env p.sysCategory)) with
    | none => ({ data := [], totalCount := 0 }, cache)
    | some firstInfo =>
      let ores := advOrderedFor env p cache firstInfo
      let orderedKeys := ores.1.1
      let allData := ores.1.2
      if orderedKeys.length = 0 then ({ data := [], totalCount := 0 }, ores.2)
      else
        let processedKeys := applySkipAndLimit (fun s => s ≠ "") orderedKeys p.skip p.limit none
        let finalResults := buildFinalResults allData processedKeys
        ({ data := finalResults
           totalCount := orderedKeys.length
           referenceId := firstInfo.tokenId
           referenceType := firstInfo.attrType }, ores.2)

/-! ## Concrete instances used by counterexamples and witnesses -/

/-- A configuration whose target owner is `"0xOwner"`. -/
def cfgX : RealityNFTConfig := { targetOwner := "0xOwner" }

/-- Decoded payload classified as a city by extractTypeFromData. -/
def vCity : JValue :=
  JValue.jobj [("attributes", JValue.jarr
    [JValue.jobj [("trait_type", JValue.jstr "type"), ("value", JValue.jstr "city")]])]

/-- Decoded payload classified as a country by extractTypeFromData. -/
def vCountry : JValue :=
  JValue.jobj [("attributes", JValue.jarr
    [JValue.jobj [("trait_type", JValue.jstr "type"), ("value", JValue.jstr "country")]])]

/-- Decoded payload with no type attribute. -/
def vPlain : JValue := JValue.jobj []

/-- Metadata of a country-typed anchor entity with tokenId `A`. -/
def mdA : EntityMetadata :=
  { owner := some "0xOwner"
    strAnns := [⟨SYS_FILE_STEM, "A"⟩, ⟨"attr_type", "country"⟩,
                ⟨"attr_country_name", "X"⟩, ⟨SYS_DATA, "dA"⟩] }

/-- Metadata of a related entity with tokenId `B` whose payload decodes to a city. -/
def mdB : EntityMetadata :=
  { owner := some "0xOwner"
    strAnns := [⟨SYS_FILE_STEM, "B"⟩, ⟨SYS_DATA, "dB"⟩] }

/-- Metadata of an entity whose annotation-derived type is the unrecognized
`"village"`. -/
def mdV : EntityMetadata :=
  { owner := some "0xOwner"
    strAnns := [⟨SYS_FILE_STEM, "V"⟩, ⟨"attr_type", "village"⟩, ⟨SYS_DATA, "dV"⟩] }

/-- Search parameters landing the pagination window past the anchor. -/
def pC1 : SearchParams := { sysCategory := "CAT", skip := 1, limit := some 1 }

/-- A store with one country anchor in the initial result and one related
city entity returned by the secondary query. -/
def envC1 : ServiceEnv :=
  { client :=
      { queryEntities := fun q => if q = standardQueryOf pC1 then [⟨"k1"⟩] else [⟨"k2"⟩]
        getEntityMetaData := fun k => if k = "k1" then mdA else mdB }
    config := cfgX
    decodeFn := fun d _ =>
      if d = "dA" then some vCountry else if d = "dB" then some vCity else none }

/-- Search parameters with no pagination. -/
def pC2 : SearchParams := { sysCategory := "CAT" }

/-- A store whose only matching entity has the unrecognized type `"village"`. -/
def envC2 : ServiceEnv :=
  { client :=
      { queryEntities := fun q => if q = standardQueryOf pC2 then [⟨"kV"⟩] else []
        getEntityMetaData := fun _ => mdV }
    config := cfgX
    decodeFn := fun d _ => if d = "dV" then some vPlain else none }

/-! ## Spec-side definitions (for refinement statements) -/

/-- The bucket rotation determined by the anchor type — building →
[building, city, country]; country → [country, city, building]; city →
[city, building, country] — as the three bucket key lists in rotation
order, each enumerated as JS `Object.keys` does (array-index-like keys in
ascending numeric order first). -/
def specRotation (t : String) (c : Categorized) :
    List String × List String × List String :=
  if t = "building" then
    (jsObjectKeys c.building, jsObjectKeys c.city, jsObjectKeys c.country)
  else if t = "country" then
    (jsObjectKeys c.country, jsObjectKeys c.city, jsObjectKeys c.building)
  else (jsObjectKeys c.city, jsObjectKeys c.building, jsObjectKeys c.country)

/-! ## Further concrete instances for witnesses -/

/-- An anchor EntityInfo as extracted from `mdA`. -/
def infoC1 : EntityInfo :=
  { entity := ⟨"k1"⟩, metadata := mdA, tokenId := some "A"
    attrType := some "country", attrCountryName := some "X" }

/-- The village anchor's EntityInfo as extracted from `mdV`. -/
def infoC2 : EntityInfo :=
  { entity := ⟨"kV"⟩, metadata := mdV, tokenId := some "V", attrType := some "village" }

/-- Bucket contents exercising the country rotation. -/
def catsW : Categorized :=
  { city := [("B1", JValue.jnull)]
    country := [("C1", JValue.jnull), ("C2", JValue.jnull)] }

/-- Metadata of a related city entity with the numeric tokenId `613`. -/
def md613 : EntityMetadata :=
  { owner := some "0xOwner"
    strAnns := [⟨SYS_FILE_STEM, "613"⟩, ⟨SYS_DATA, "d613"⟩] }

/-- Metadata of a related city entity with the numeric tokenId `277`. -/
def md277 : EntityMetadata :=
  { owner := some "0xOwner"
    strAnns := [⟨SYS_FILE_STEM, "277"⟩, ⟨SYS_DATA, "d277"⟩] }

/-- Advanced-search parameters with no pagination for the numeric-id store. -/
def pC3x : SearchParams := { sysCategory := "CAT" }

/-- A store whose related query returns the city entities in the order
613 then 277 — numeric token ids out of ascending order. -/
def envC3x : ServiceEnv :=
  { client :=
      { queryEntities := fun q =>
          if q = standardQueryOf pC3x then [⟨"kA"⟩] else [⟨"k613"⟩, ⟨"k277"⟩]
        getEntityMetaData := fun k =>
          if k = "kA" then mdA else if k = "k613" then md613 else md277 }
    config := cfgX
    decodeFn := fun d _ =>
      if d = "dA" then some vCountry
      else if d = "d613" then some vCity
      else if d = "d277" then some vCity else none }

/-- The anchor EntityInfo of `envC3x`, as extracted from `mdA`. -/
def infoC3x : EntityInfo :=
  { entity := ⟨"kA"⟩, metadata := mdA, tokenId := some "A"
    attrType := some "country", attrCountryName := some "X" }

/-- A processed anchor entry. -/
def peW : ProcessedEntity := ⟨"A", JValue.jnull⟩

/-- Metadata whose owner differs from `cfgX`'s target owner only in case. -/
def mdCase : EntityMetadata := { owner := some "0XOWNER" }

/-- Metadata with no owner field. -/
def mdNoOwner : EntityMetadata := { strAnns := [⟨SYS_DATA, "d"⟩] }

/-- Metadata owned by a different address. -/
def mdBad : EntityMetadata :=
  { owner := some "0xEvil", strAnns := [⟨SYS_FILE_STEM, "Z"⟩, ⟨SYS_DATA, "d"⟩] }

/-- An environment whose only metadata answer is the foreign-owned `mdBad`. -/
def envC5 : ServiceEnv :=
  { client := { queryEntities := fun _ => [], getEntityMetaData := fun _ => mdBad }
    config := cfgX
    decodeFn := fun _ _ => some JValue.jnull }

/-- Standard-search parameters with limit 1. -/
def pC7 : SearchParams := { sysCategory := "CAT", skip := 0, limit := some 1 }

/-- A store with two processable entities for the standard path. -/
def envC7 : ServiceEnv :=
  { client :=
      { queryEntities := fun q => if q = standardQueryOf pC7 then [⟨"k1"⟩, ⟨"k2"⟩] else []
        getEntityMetaData := fun k => if k = "k1" then mdA else mdB }
    config := cfgX
    decodeFn := fun d _ =>
      if d = "dA" then some vCountry else if d = "dB" then some vCity else none }

/-- Metadata carrying neither `_sys_data` nor `_sys_file_stem`. -/
def mdNoData : EntityMetadata :=
  { owner := some "0xOwner", strAnns := [⟨"attr_type", "city"⟩] }

/-- An environment whose metadata lacks the system data annotations. -/
def envC10 : ServiceEnv :=
  { client := { queryEntities := fun _ => [], getEntityMetaData := fun _ => mdNoData }
    config := cfgX
    decodeFn := fun _ _ => some JValue.jnull }

/-- Advanced-query parameters with country, settlement and types all set. -/
def apC8 : AdvancedQueryParams :=
  { sysCategory := "CAT", tokenTypes := some ["building"]
    tokenCountry := some "X", tokenSettlement := some "Y" }

/-- Toy collaborator codecs for the decode round-trip witness, exact on the
payload of `XW`. -/
def cxW : Codecs :=
  { atob := fun s => if s = "g" then some [1, 55] else if s = "p" then some [55] else none
    gunzip := fun bs => match bs with | 1 :: r => some r | _ => none
    utf8Decode := fun bs => if bs = [55] then "7" else ""
    jsonParse := fun s => if s = "7" then some (JValue.jnum 7) else none }

/-- Toy gzip for the witness. -/
def gzipW : List Nat → List Nat := fun bs => 1 :: bs

/-- Toy base64 encoder for the witness. -/
def btoaW : List Nat → String :=
  fun bs => if bs = [1, 55] then "g" else if bs = [55] then "p" else ""

/-- Toy UTF-8 encoder for the witness. -/
def utf8EncodeW : String → List Nat := fun s => if s = "7" then [55] else []

/-- Toy JSON printer for the witness. -/
def jsonPrintW : JValue → String := fun _ => "7"

/-- The witness payload. -/
def XW : JValue := JValue.jnum 7

/-! ## Helper lemmas -/

theorem recKeys_recSet {α : Type} (r : Record α) (k : String) (v : α) :
    recKeys (recSet r k v) =
      if k ∈ recKeys r then recKeys r else recKeys r ++ [k] := by
  unfold recSet
  by_cases h : k ∈ recKeys r
  · rw [if_pos h, if_pos h]
    unfold recKeys
    rw [List.map_map]
    refine List.map_congr_left ?_
    intro kv _
    simp only [Function.comp]
    split
    · next heq => exact heq.symm
    · rfl
  · rw [if_neg h, if_neg h]
    simp [recKeys]

theorem length_recSet_le {α : Type} (r : Record α) (k : String) (v : α) :
    (recSet r k v).length ≤ r.length + 1 := by
  unfold recSet
  split
  · simp
  · simp

theorem recGet?_eq_none_iff {α : Type} (r : Record α) (K : String) :
    recGet? r K = none ↔ K ∉ recKeys r := by
  unfold recGet? recKeys
  simp [Option.map_eq_none', List.find?_eq_none, List.mem_map]
  aesop

theorem dedupAppend_nil (acc : List String) : dedupAppend acc [] = acc := rfl

theorem dedupAppend_cons (acc : List String) (k : String) (ks : List String) :
    dedupAppend acc (k :: ks) =
      dedupAppend (if k ∈ acc then acc else acc ++ [k]) ks := rfl

theorem mem_dedupAppend (x : String) :
    ∀ (ks acc : List String), x ∈ dedupAppend acc ks ↔ x ∈ acc ∨ x ∈ ks := by
  intro ks
  induction ks with
  | nil => intro acc; simp [dedupAppend_nil]
  | cons k ks ih =>
    intro acc
    rw [dedupAppend_cons]
    by_cases hk : k ∈ acc
    · rw [if_pos hk, ih]
      constructor
      · rintro (h | h)
        · exact Or.inl h
        · exact Or.inr (List.mem_cons_of_mem k h)
      · rintro (h | h)
        · exact Or.inl h
        · rcases List.mem_cons.mp h with h | h
          · exact Or.inl (h ▸ hk)
          · exact Or.inr h
    · rw [if_neg hk, ih]
      simp [List.mem_append, List.mem_cons]
      tauto

theorem dedupAppend_eq_append :
    ∀ (ks acc : List String), ∃ n, dedupAppend acc ks = acc ++ n ∧ n.Sublist ks := by
  intro ks
  induction ks with
  | nil => intro acc; exact ⟨[], by simp [dedupAppend_nil]⟩
  | cons k ks ih =>
    intro acc
    rw [dedupAppend_cons]
    by_cases hk : k ∈ acc
    · rw [if_pos hk]
      obtain ⟨n, hn, hs⟩ := ih acc
      exact ⟨n, hn, hs.cons k⟩
    · rw [if_neg hk]
      obtain ⟨n, hn, hs⟩ := ih (acc ++ [k])
      refine ⟨k :: n, ?_, hs.cons₂ k⟩
      rw [hn, List.append_assoc]
      rfl

theorem nodup_dedupAppend :
    ∀ (ks acc : List String), acc.Nodup → (dedupAppend acc ks).Nodup := by
  intro ks
  induction ks with
  | nil => intro acc h; exact h
  | cons k ks ih =>
    intro acc h
    rw [dedupAppend_cons]
    by_cases hk : k ∈ acc
    · rw [if_pos hk]; exact ih acc h
    · rw [if_neg hk]
      refine ih (acc ++ [k]) ?_
      simp [List.nodup_append, h, hk]

theorem foldl_orderStep_fst (td : Record JValue) :
    ∀ (ks : List String) (a : List String × Record JValue),
      (ks.foldl (orderStep td) a).1 = dedupAppend a.1 ks := by
  intro ks
  induction ks with
  | nil => intro a; rfl
  | cons k ks ih =>
    intro a
    rw [List.foldl_cons, ih, dedupAppend_cons]
    unfold orderStep
    by_cases hk : k ∈ a.1
    · rw [if_pos hk, if_pos hk]
    · rw [if_neg hk, if_neg hk]

theorem orderBucket_fst (c : Categorized) (a : List String × Record JValue)
    (t : String) :
    (orderBucket c a t).1 = dedupAppend a.1 (jsObjectKeys (bucketOf c t)) :=
  foldl_orderStep_fst _ _ a

theorem nodup_foldl_orderBucket (c : Categorized) :
    ∀ (ord : List String) (a : List String × Record JValue),
      a.1.Nodup → ((ord.foldl (orderBucket c) a).1).Nodup := by
  intro ord
  induction ord with
  | nil => intro a h; exact h
  | cons t ord ih =>
    intro a h
    rw [List.foldl_cons]
    refine ih _ ?_
    rw [orderBucket_fst]
    exact nodup_dedupAppend _ _ h

theorem nodup_initPair (fd : Option ProcessedEntity) (tid : Option String) :
    (initPair fd tid).1.Nodup := by
  unfold initPair
  rcases tid with _ | t <;> rcases fd with _ | pe <;> simp
  split <;> simp

theorem nodup_orderResultsByType (fd : Option ProcessedEntity)
    (tid atp : Option String) (c : Categorized) :
    (orderResultsByType fd tid atp c).1.Nodup := by
  unfold orderResultsByType
  split
  · exact nodup_foldl_orderBucket _ _ _ (nodup_initPair fd tid)
  · exact nodup_initPair fd tid
  · exact List.nodup_nil

theorem orderResultsByType_keys_recognized (pe : ProcessedEntity) (tid : String)
    (htid : tid ≠ "") (t : String) (c : Categorized)
    (ht : t = "building" ∨ t = "country" ∨ t = "city") :
    (orderResultsByType (some pe) (some tid) (some t) c).1 =
      dedupAppend (dedupAppend (dedupAppend [tid] (specRotation t c).1)
        (specRotation t c).2.1) (specRotation t c).2.2 := by
  rcases ht with h | h | h <;> subst h <;>
    simp [orderResultsByType, orderListOf, specRotation, initPair, htid] <;>
    rw [orderBucket_fst, orderBucket_fst, orderBucket_fst] <;>
    simp [bucketOf]

theorem orderResultsByType_unrecognized (fd : Option ProcessedEntity)
    (tid : Option String) (c : Categorized) (t : String)
    (h1 : t ≠ "building") (h2 : t ≠ "country") (h3 : t ≠ "city")
    (hp : t ∉ OBJECT_PROTO_KEYS) :
    orderResultsByType fd tid (some t) c = initPair fd tid := by
  by_cases h0 : t = "" <;>
    simp [orderResultsByType, orderListOf, h0, h1, h2, h3, hp]

theorem orderResultsByType_inherited (fd : Option ProcessedEntity)
    (tid : Option String) (c : Categorized) (t : String)
    (hp : t ∈ OBJECT_PROTO_KEYS) :
    orderResultsByType fd tid (some t) c = ([], []) := by
  simp only [OBJECT_PROTO_KEYS, List.mem_cons, List.not_mem_nil, or_false] at hp
  rcases hp with rfl | rfl | rfl | rfl | rfl | rfl | rfl | rfl | rfl | rfl | rfl | rfl <;>
    rfl

theorem mem_insertByNat (k x : String) :
    ∀ l : List String, k ∈ insertByNat x l ↔ k = x ∨ k ∈ l := by
  intro l
  induction l with
  | nil => simp [insertByNat]
  | cons y ys ih =>
    unfold insertByNat
    split
    · simp
    · simp only [List.mem_cons, ih]
      tauto

theorem mem_sortByNat (k : String) :
    ∀ l : List String, k ∈ sortByNat l ↔ k ∈ l := by
  intro l
  induction l with
  | nil => simp [sortByNat]
  | cons x xs ih => simp [sortByNat, mem_insertByNat, ih]

theorem mem_jsObjectKeys {α : Type} (k : String) (r : Record α) :
    k ∈ jsObjectKeys r ↔ k ∈ recKeys r := by
  unfold jsObjectKeys
  simp only [List.mem_append, mem_sortByNat, List.mem_filter]
  constructor
  · rintro (⟨h, _⟩ | ⟨h, _⟩) <;>
      simpa using (mem_dedupAppend k (recKeys r) []).mp h
  · intro h
    have h' : k ∈ dedupAppend [] (recKeys r) :=
      (mem_dedupAppend k (recKeys r) []).mpr (Or.inr h)
    by_cases hx : isArrayIndexKey k
    · exact Or.inl ⟨h', hx⟩
    · exact Or.inr ⟨h', by simpa using hx⟩

theorem recKeys_foldl_recSet (g : String → JValue) :
    ∀ (ks : List String) (acc : Record JValue), ks.Nodup →
      (∀ k ∈ ks, k ∉ recKeys acc) →
      recKeys (ks.foldl (fun a k => recSet a k (g k)) acc) = recKeys acc ++ ks := by
  intro ks
  induction ks with
  | nil => intro acc _ _; simp
  | cons k ks ih =>
    intro acc hnd hdisj
    rw [List.foldl_cons]
    have hk : k ∉ recKeys acc := hdisj k (List.mem_cons_self k ks)
    have hkeys : recKeys (recSet acc k (g k)) = recKeys acc ++ [k] := by
      rw [recKeys_recSet, if_neg hk]
    rw [ih (recSet acc k (g k)) (List.Nodup.of_cons hnd) ?_, hkeys,
      List.append_assoc]
    · rfl
    · intro k' hk'
      rw [hkeys]
      simp only [List.mem_append, List.mem_singleton]
      rintro (h | h)
      · exact hdisj k' (List.mem_cons_of_mem k hk') h
      · rw [h] at hk'
        exact (List.nodup_cons.mp hnd).1 hk'

theorem recKeys_buildFinalResults (allData : Record JValue) (ks : List String)
    (h : ks.Nodup) : recKeys (buildFinalResults allData ks) = ks := by
  unfold buildFinalResults
  have := recKeys_foldl_recSet (fun k => (recGet? allData k).getD JValue.jnull)
    ks [] h (by simp [recKeys])
  simpa [recKeys] using this

theorem recKeys_extractAnns_mem (anns : List AnnKV) (keys : List String)
    (k : String) (hk : k ∈ recKeys (extractAnns anns keys)) :
    ∃ kv ∈ anns, kv.key = k := by
  unfold extractAnns at hk
  suffices h : ∀ (l : List AnnKV) (acc : Record String),
      k ∈ recKeys (l.foldl (fun acc ann =>
        if ann.key ∈ keys then recSet acc ann.key ann.value else acc) acc) →
      k ∈ recKeys acc ∨ ∃ kv ∈ l, kv.key = k by
    rcases h anns [] hk with h' | h'
    · simp [recKeys] at h'
    · exact h'
  intro l
  induction l with
  | nil => intro acc h; exact Or.inl h
  | cons ann l ih =>
    intro acc h
    rw [List.foldl_cons] at h
    rcases ih _ h with h' | h'
    · by_cases ha : ann.key ∈ keys
      · rw [if_pos ha, recKeys_recSet] at h'
        split at h'
        · exact Or.inl h'
        · rcases List.mem_append.mp h' with h'' | h''
          · exact Or.inl h''
          · exact Or.inr ⟨ann, List.mem_cons_self ann l,
              (List.mem_singleton.mp h'').symm⟩
      · rw [if_neg ha] at h'
        exact Or.inl h'
    · obtain ⟨kv, hkv, hkey⟩ := h'
      exact Or.inr ⟨kv, List.mem_cons_of_mem ann hkv, hkey⟩

theorem recGet?_extractAnns_none (anns : List AnnKV) (keys : List String)
    (K : String) (h : ∀ kv ∈ anns, kv.key ≠ K) :
    recGet? (extractAnns anns keys) K = none := by
  rw [recGet?_eq_none_iff]
  intro hK
  obtain ⟨kv, hkv, hkey⟩ := recKeys_extractAnns_mem anns keys K hK
  exact h kv hkv hkey

theorem processEntityForMultiple_fst_cache (env : ServiceEnv) (cat : String)
    (e : Entity) (c c' : Cache) :
    (processEntityForMultiple env cat c e).1 =
      (processEntityForMultiple env cat c' e).1 := by
  unfold processEntityForMultiple
  dsimp only
  split
  · rfl
  · split
    · split
      · rfl
      · split <;> rfl
    · rfl

theorem processMany_length (env : ServiceEnv) (cat : String) :
    ∀ (es : List Entity) (c : Cache),
      (processMany env cat c es).1.length = es.length := by
  intro es
  induction es with
  | nil => intro c; rfl
  | cons e es ih => intro c; simp [processMany, ih]

theorem processMany_mem (env : ServiceEnv) (cat : String) :
    ∀ (es : List Entity) (c : Cache) (r : Option ProcessedEntity),
      r ∈ (processMany env cat c es).1 →
      ∃ e ∈ es, r = (processEntityForMultiple env cat c e).1 := by
  intro es
  induction es with
  | nil => intro c r h; simp [processMany] at h
  | cons e es ih =>
    intro c r h
    rw [processMany] at h
    rcases List.mem_cons.mp h with h' | h'
    · exact ⟨e, List.mem_cons_self e es, h'⟩
    · obtain ⟨e', he', hr⟩ := ih _ r h'
      refine ⟨e', List.mem_cons_of_mem e he', ?_⟩
      rw [hr]
      exact processEntityForMultiple_fst_cache env cat e' _ c

theorem length_buildResultsRecord (rs : List (Option ProcessedEntity)) :
    (buildResultsRecord rs).length ≤ rs.length := by
  unfold buildResultsRecord
  suffices h : ∀ (l : List (Option ProcessedEntity)) (acc : Record JValue),
      (l.foldl (fun acc r =>
        match r with
        | some pe => recSet acc pe.tokenId pe.data
        | none => acc) acc).length ≤ acc.length + l.length by
    simpa using h rs []
  intro l
  induction l with
  | nil => intro acc; simp
  | cons r l ih =>
    intro acc
    rw [List.foldl_cons]
    rcases r with _ | pe
    · calc _ ≤ acc.length + l.length := ih acc
        _ ≤ acc.length + (l.length + 1) := by omega
    · calc _ ≤ (recSet acc pe.tokenId pe.data).length + l.length := ih _
        _ ≤ (acc.length + 1) + l.length := by
              have := length_recSet_le acc pe.tokenId pe.data
              omega
        _ ≤ acc.length + (l.length + 1) := by omega

theorem mem_keys_buildResultsRecord (rs : List (Option ProcessedEntity))
    (k : String) (hk : k ∈ recKeys (buildResultsRecord rs)) :
    ∃ pe : ProcessedEntity, some pe ∈ rs ∧ pe.tokenId = k := by
  unfold buildResultsRecord at hk
  suffices h : ∀ (l : List (Option ProcessedEntity)) (acc : Record JValue),
      k ∈ recKeys (l.foldl (fun acc r =>
        match r with
        | some pe => recSet acc pe.tokenId pe.data
        | none => acc) acc) →
      k ∈ recKeys acc ∨ ∃ pe : ProcessedEntity, some pe ∈ l ∧ pe.tokenId = k by
    rcases h rs [] hk with h' | h'
    · simp [recKeys] at h'
    · exact h'
  intro l
  induction l with
  | nil => intro acc h; exact Or.inl h
  | cons r l ih =>
    intro acc h
    rw [List.foldl_cons] at h
    rcases ih _ h with h' | h'
    · rcases r with _ | pe
      · exact Or.inl h'
      · rw [recKeys_recSet] at h'
        split at h'
        · exact Or.inl h'
        · rcases List.mem_append.mp h' with h'' | h''
          · exact Or.inl h''
          · exact Or.inr ⟨pe, List.mem_cons_self _ l,
              (List.mem_singleton.mp h'').symm⟩
    · obtain ⟨pe, hpe, hkey⟩ := h'
      exact Or.inr ⟨pe, List.mem_cons_of_mem r hpe, hkey⟩

theorem applySkipAndLimit_none_sublist {α : Type} [DecidableEq α]
    (tT : α → Bool) (items : List α) (skip : Int) (limit : Option Int) :
    (applySkipAndLimit tT items skip limit none).Sublist items := by
  unfold applySkipAndLimit jsSlice
  dsimp only
  repeat' split
  all_goals first
    | exact List.drop_sublist _ _
    | exact (List.drop_sublist _ _).trans (List.take_sublist _ _)

theorem length_applySkipAndLimit_le {α : Type} [DecidableEq α]
    (tT : α → Bool) (items : List α) (skip : Int) (l : Int) (hl : 0 < l) :
    (applySkipAndLimit tT items skip (some l) none).length ≤ l.toNat := by
  unfold applySkipAndLimit jsSlice
  dsimp only
  rw [if_pos (show l > 0 from hl)]
  dsimp only
  simp only [List.length_drop, List.length_take]
  omega

theorem lowerStr_eq_empty_iff (s : String) : lowerStr s = "" ↔ s = "" := by
  constructor
  · intro h
    have hd : s.data.map Char.toLower = ([] : List Char) := congrArg String.data h
    exact String.ext (List.map_eq_nil_iff.mp hd)
  · intro h
    subst h
    rfl

/-! ## Claim theorems -/

/-- C9: in applySkipAndLimit, when the two getAllData paths call it (no
required item), a non-null limit that is 0 or negative leaves the slice end
undefined, so every item from the skip position onward is returned; and a
negative skip is clamped to 0. -/
theorem spec_C9 {α : Type} [DecidableEq α] (tT : α → Bool) (items : List α)
    (skip : Int) (l : Int) (hl : l ≤ 0) (limit0 : Option Int) :
    applySkipAndLimit tT items skip (some l) none = items.drop (max 0 skip).toNat
    ∧ (skip < 0 → ∀ (req : Option α),
        applySkipAndLimit tT items skip limit0 req
          = applySkipAndLimit tT items 0 limit0 req) := by
  constructor
  · unfold applySkipAndLimit jsSlice
    dsimp only
    rw [if_neg (by omega : ¬ l > 0)]
  · intro hs req
    unfold applySkipAndLimit
    have h1 : max 0 skip = 0 := max_eq_left (le_of_lt hs)
    have h2 : max 0 (0 : Int) = 0 := max_self 0
    rw [h1, h2]

/-- Witness for C9 at a concrete input: limit -1 returns everything from the
clamped skip position, and skip -2 behaves as skip 0. -/
theorem spec_C9_witness :
    applySkipAndLimit (fun _ : Nat => true) [10, 20, 30] (-2) (some (-1)) none
        = ([10, 20, 30] : List Nat).drop (max 0 (-2 : Int)).toNat
    ∧ ((-2 : Int) < 0 → ∀ (req : Option Nat),
        applySkipAndLimit (fun _ : Nat => true) [10, 20, 30] (-2) (some 2) req
          = applySkipAndLimit (fun _ : Nat => true) [10, 20, 30] 0 (some 2) req) :=
  ⟨(spec_C9 (fun _ : Nat => true) [10, 20, 30] (-2) (-1) (by decide) (some 2)).1,
   (spec_C9 (fun _ : Nat => true) [10, 20, 30] (-2) (-1) (by decide) (some 2)).2⟩

/-- C4: in buildQuery, an empty array filter contributes no clause at all, a
one-element array filter contributes a single plain equality clause, and a
longer one contributes a parenthesized disjunction of equalities joined by
`||`. -/
theorem spec_C4 :
    (∀ p : QueryParams,
      buildQuery { p with tokenIds := some [] } = buildQuery { p with tokenIds := none }
      ∧ buildQuery { p with tokenTypes := some [] }
          = buildQuery { p with tokenTypes := none })
    ∧ (∀ k : String, buildArrayCondition k [] = "")
    ∧ (∀ k v : String,
        buildArrayCondition k [v] = " && " ++ k ++ " = \"" ++ v ++ "\"")
    ∧ (∀ (k v1 v2 : String) (vs : List String),
        buildArrayCondition k (v1 :: v2 :: vs) =
          " && (" ++ String.intercalate " || "
            ((v1 :: v2 :: vs).map (fun v => k ++ " = \"" ++ v ++ "\"")) ++ ")") := by
  refine ⟨fun p => ⟨?_, ?_⟩, fun k => rfl, fun k v => rfl, fun k v1 v2 vs => rfl⟩
  · rfl
  · rfl

/-- C5: an entity contributes to a result only if its metadata's owner,
case-normalized, equals the configured target owner case-normalized; a
case-only difference is still a match, and a missing owner excludes the
entity.  The target owner is assumed non-empty, as guaranteed by
validateConfig before any retrieval runs. -/
theorem spec_C5 (cfg : RealityNFTConfig) (md : EntityMetadata)
    (htgt : cfg.targetOwner ≠ "") :
    (isOwnedByTargetOwner cfg md = true ↔
      ∃ o, md.owner = some o ∧ normalizeAddress o = normalizeAddress cfg.targetOwner)
    ∧ (md.owner = none → isOwnedByTargetOwner cfg md = false)
    ∧ (∀ (env : ServiceEnv) (cat : String) (cache : Cache) (e : Entity),
        env.config = cfg →
        env.client.getEntityMetaData e.entityKey = md →
        isOwnedByTargetOwner cfg md = false →
        processEntityForMultiple env cat cache e = (none, cache)
        ∧ ∀ tid, processEntity env cat tid cache e = (none, cache)) := by
  refine ⟨⟨?_, ?_⟩, ?_, ?_⟩
  · intro h
    unfold isOwnedByTargetOwner at h
    rcases hmd : md.owner with _ | o
    · rw [hmd] at h
      simp at h
    · rw [hmd] at h
      dsimp only at h
      by_cases ho : o = ""
      · rw [if_pos ho] at h
        simp at h
      · rw [if_neg ho] at h
        exact ⟨o, rfl, of_decide_eq_true h⟩
  · rintro ⟨o, ho, heq⟩
    have ho' : o ≠ "" := by
      intro h0
      subst h0
      have h1 : normalizeAddress cfg.targetOwner = "" := heq.symm
      exact htgt ((lowerStr_eq_empty_iff cfg.targetOwner).mp h1)
    unfold isOwnedByTargetOwner
    rw [ho]
    dsimp only
    rw [if_neg ho']
    exact decide_eq_true heq
  · intro hnone
    unfold isOwnedByTargetOwner
    rw [hnone]
  · intro env cat cache e hcfg hmd hfalse
    constructor
    · unfold processEntityForMultiple
      dsimp only
      rw [hmd, hcfg, hfalse]
      simp
    · intro tid
      unfold processEntity
      dsimp only
      rw [hmd, hcfg, hfalse]
      simp

/-- Witness for C5: a case-only owner difference is accepted, a missing owner
is rejected, and a foreign-owned entity is dropped with the cache untouched. -/
theorem spec_C5_witness :
    isOwnedByTargetOwner cfgX mdCase = true
    ∧ isOwnedByTargetOwner cfgX mdNoOwner = false
    ∧ processEntityForMultiple envC5 "CAT" [] ⟨"k"⟩ = (none, []) := by
  refine ⟨?_, ?_, ?_⟩
  · exact (spec_C5 cfgX mdCase (by decide)).1.mpr ⟨"0XOWNER", rfl, by decide⟩
  · exact (spec_C5 cfgX mdNoOwner (by decide)).2.1 rfl
  · exact ((spec_C5 cfgX mdBad (by decide)).2.2 envC5 "CAT" [] ⟨"k"⟩ rfl rfl
      (by decide)).1

/-- C10: an entity whose metadata lacks the `_sys_data` annotation (or, in
the batch and advanced per-entity path, the `_sys_file_stem` annotation) is
silently omitted: the per-entity processors return null and leave the cache
untouched. -/
theorem spec_C10 (env : ServiceEnv) (cat : String) (cache : Cache) (e : Entity) :
    ((∀ kv ∈ (env.client.getEntityMetaData e.entityKey).strAnns, kv.key ≠ SYS_DATA) →
      (∀ tid, processEntity env cat tid cache e = (none, cache))
      ∧ processEntityForMultiple env cat cache e = (none, cache))
    ∧ ((∀ kv ∈ (env.client.getEntityMetaData e.entityKey).strAnns,
          kv.key ≠ SYS_FILE_STEM) →
        processEntityForMultiple env cat cache e = (none, cache)) := by
  constructor
  · intro h
    have hd1 : recGet? (extractAnns (env.client.getEntityMetaData e.entityKey).strAnns
        [SYS_DATA, SYS_COMPRESSION_METHOD]) SYS_DATA = none :=
      recGet?_extractAnns_none _ _ _ h
    have hd2 : recGet? (extractAnns (env.client.getEntityMetaData e.entityKey).strAnns
        [SYS_FILE_STEM, SYS_DATA, SYS_COMPRESSION_METHOD]) SYS_DATA = none :=
      recGet?_extractAnns_none _ _ _ h
    constructor
    · intro tid
      unfold processEntity
      dsimp only
      split
      · rfl
      · rw [hd1]
    · unfold processEntityForMultiple
      dsimp only
      split
      · rfl
      · rw [hd2]
        rcases recGet? (extractAnns (env.client.getEntityMetaData e.entityKey).strAnns
          [SYS_FILE_STEM, SYS_DATA, SYS_COMPRESSION_METHOD]) SYS_FILE_STEM with _ | tid
        · rfl
        · rfl
  · intro h
    have hs : recGet? (extractAnns (env.client.getEntityMetaData e.entityKey).strAnns
        [SYS_FILE_STEM, SYS_DATA, SYS_COMPRESSION_METHOD]) SYS_FILE_STEM = none :=
      recGet?_extractAnns_none _ _ _ h
    unfold processEntityForMultiple
    dsimp only
    split
    · rfl
    · rw [hs]

/-- Witness for C10: metadata with neither system annotation yields null from
both processors, with the cache unchanged. -/
theorem spec_C10_witness :
    (processEntity envC10 "CAT" "T" [] ⟨"k"⟩ = (none, [])
      ∧ processEntityForMultiple envC10 "CAT" [] ⟨"k"⟩ = (none, []))
    ∧ processEntityForMultiple envC10 "CAT" [] ⟨"k"⟩ = (none, []) := by
  have h := spec_C10 envC10 "CAT" [] ⟨"k"⟩
  refine ⟨⟨(h.1 (by decide)).1 "T", (h.1 (by decide)).2⟩, h.2 (by decide)⟩

/-- C6: decodeAndDecompressData round-trips any JSON-serializable value both
through the gzip path and the uncompressed path, under the collaborator
contracts of the external codecs at the payload in question; the gzip tag is
compared case-insensitively, and any other tag passes the bytes through
undecompressed. -/
theorem spec_C6 (cx : Codecs) (gzip : List Nat → List Nat)
    (btoa : List Nat → String) (utf8Encode : String → List Nat)
    (jsonPrint : JValue → String) (X : JValue)
    (hb1 : cx.atob (btoa (gzip (utf8Encode (jsonPrint X))))
        = some (gzip (utf8Encode (jsonPrint X))))
    (hb2 : cx.atob (btoa (utf8Encode (jsonPrint X)))
        = some (utf8Encode (jsonPrint X)))
    (hg : cx.gunzip (gzip (utf8Encode (jsonPrint X)))
        = some (utf8Encode (jsonPrint X)))
    (hu : cx.utf8Decode (utf8Encode (jsonPrint X)) = jsonPrint X)
    (hj : cx.jsonParse (jsonPrint X) = some X) :
    decodeAndDecompressData cx (btoa (gzip (utf8Encode (jsonPrint X))))
        (some GZIP_TAG) = some X
    ∧ decodeAndDecompressData cx (btoa (utf8Encode (jsonPrint X))) none = some X
    ∧ (∀ tag, lowerStr tag = GZIP_TAG →
        decodeAndDecompressData cx (btoa (gzip (utf8Encode (jsonPrint X))))
          (some tag) = some X)
    ∧ (∀ (tag : String) (bs : List Nat), lowerStr tag ≠ GZIP_TAG →
        cx.atob (btoa bs) = some bs →
        decodeAndDecompressData cx (btoa bs) (some tag)
          = cx.jsonParse (cx.utf8Decode bs)) := by
  have hgz : ∀ tag, lowerStr tag = GZIP_TAG → isGzipTag (some tag) = true := by
    intro tag htag
    unfold isGzipTag
    exact decide_eq_true htag
  have hngz : ∀ tag, lowerStr tag ≠ GZIP_TAG → isGzipTag (some tag) = false := by
    intro tag htag
    unfold isGzipTag
    exact decide_eq_false htag
  refine ⟨?_, ?_, ?_, ?_⟩
  · unfold decodeAndDecompressData
    rw [hb1, hgz GZIP_TAG rfl]
    simp [hg, hu, hj]
  · unfold decodeAndDecompressData
    rw [hb2]
    have hz : isGzipTag none = false := rfl
    rw [hz]
    simp [hu, hj]
  · intro tag htag
    unfold decodeAndDecompressData
    rw [hb1, hgz tag htag]
    simp [hg, hu, hj]
  · intro tag bs htag hbs
    unfold decodeAndDecompressData
    rw [hbs, hngz tag htag]
    simp

/-- Witness for C6: the toy collaborator codecs satisfy the contracts at the
payload of `XW`, and both round-trips hold, together with the tag rules. -/
theorem spec_C6_witness :
    decodeAndDecompressData cxW (btoaW (gzipW (utf8EncodeW (jsonPrintW XW))))
        (some GZIP_TAG) = some XW
    ∧ decodeAndDecompressData cxW (btoaW (utf8EncodeW (jsonPrintW XW))) none = some XW
    ∧ (∀ tag, lowerStr tag = GZIP_TAG →
        decodeAndDecompressData cxW (btoaW (gzipW (utf8EncodeW (jsonPrintW XW))))
          (some tag) = some XW)
    ∧ (∀ (tag : String) (bs : List Nat), lowerStr tag ≠ GZIP_TAG →
        cxW.atob (btoaW bs) = some bs →
        decodeAndDecompressData cxW (btoaW bs) (some tag)
          = cxW.jsonParse (cxW.utf8Decode bs)) :=
  spec_C6 cxW gzipW btoaW utf8EncodeW jsonPrintW XW rfl rfl rfl rfl rfl

/-- C8: in buildAdvancedQuery, when both tokenCountry and tokenSettlement are
truthy, the tokenTypes filter is also omitted from the base query, and the
only type constraints in the emitted expression are the two inside the
appended disjunction. -/
theorem spec_C8 (p : AdvancedQueryParams) (c s : String)
    (hc : c ≠ "") (hs : s ≠ "")
    (hpc : p.tokenCountry = some c) (hps : p.tokenSettlement = some s) :
    buildAdvancedQuery p = buildAdvancedQuery { p with tokenTypes := none }
    ∧ (p.excludeTokenIds = none →
        buildAdvancedQuery p =
          buildQuery
            { tokenIds := none
              sysCategory := p.sysCategory
              tokenTypes := none
              tokenCountry := none
              tokenKeywords := p.tokenKeywords
              tokenSettlement := none }
          ++ " && (( " ++ getAttributeKey p.sysCategory ATTR_TYPE ++ " = \"country\" && "
          ++ getAttributeKey p.sysCategory ATTR_COUNTRY_NAME ++ " = \"" ++ c ++ "\") || ("
          ++ getAttributeKey p.sysCategory ATTR_TYPE ++ " = \"building\" && "
          ++ getAttributeKey p.sysCategory ATTR_SETTLEMENT ++ " = \"" ++ s ++ "\"))") := by
  have h1 : jsTruthyS p.tokenCountry = true := by
    rw [hpc]
    exact decide_eq_true hc
  have h2 : jsTruthyS p.tokenSettlement = true := by
    rw [hps]
    exact decide_eq_true hs
  constructor
  · unfold buildAdvancedQuery
    dsimp only
    rw [h1, h2]
    simp [hpc, hps]
  · intro hex
    unfold buildAdvancedQuery
    dsimp only
    rw [h1, h2, hex, hpc, hps]
    simp

/-- Witness for C8 at concrete parameters with all three filters set. -/
theorem spec_C8_witness :
    buildAdvancedQuery apC8 = buildAdvancedQuery { apC8 with tokenTypes := none }
    ∧ (apC8.excludeTokenIds = none →
        buildAdvancedQuery apC8 =
          buildQuery
            { tokenIds := none
              sysCategory := apC8.sysCategory
              tokenTypes := none
              tokenCountry := none
              tokenKeywords := apC8.tokenKeywords
              tokenSettlement := none }
          ++ " && (( " ++ getAttributeKey apC8.sysCategory ATTR_TYPE ++ " = \"country\" && "
          ++ getAttributeKey apC8.sysCategory ATTR_COUNTRY_NAME ++ " = \"" ++ "X" ++ "\") || ("
          ++ getAttributeKey apC8.sysCategory ATTR_TYPE ++ " = \"building\" && "
          ++ getAttributeKey apC8.sysCategory ATTR_SETTLEMENT ++ " = \"" ++ "Y" ++ "\"))") :=
  spec_C8 apC8 "X" "Y" (by decide) (by decide) rfl rfl

set_option maxHeartbeats 1000000 in
/-- C3 counterexample: the store returns the related city entities in the
order 613 then 277, and the bucket record therefore holds them in that
insertion order; but `Object.keys` enumerates the numeric token ids in
ascending numeric order, so the output key list is `[A, 277, 613]` — not the
store-order `[A, 613, 277]` the claim's within-bucket-order conjunct
requires. -/
theorem spec_C3_counterexample :
    fetchRelatedEntities envC3x "CAT" infoC3x = [⟨"k613"⟩, ⟨"k277"⟩]
    ∧ recKeys (categorizeEntitiesByType envC3x "CAT" []
        [⟨"k613"⟩, ⟨"k277"⟩]).1.city = ["613", "277"]
    ∧ recKeys (performAdvancedSearch envC3x pC3x []).1.data = ["A", "277", "613"]
    ∧ recKeys (performAdvancedSearch envC3x pC3x []).1.data
        ≠ ["A", "613", "277"] := by decide

set_option maxHeartbeats 1000000 in
/-- C3 amended: for a recognized anchor type with a truthy tokenId and a
successful anchor decode, the ordered key list starts with the anchor, is
duplicate-free, splits into the anchor followed by three segments that are
subsequences of the bucket key lists in the type's rotation — each bucket
enumerated as JS `Object.keys` does, with numeric token-id keys in ascending
numeric order rather than store return order — and contains exactly the
anchor plus the bucket keys. -/
theorem spec_C3 (pe : ProcessedEntity) (tid : String) (t : String)
    (c : Categorized) (htid : tid ≠ "")
    (ht : t = "building" ∨ t = "country" ∨ t = "city") :
    (orderResultsByType (some pe) (some tid) (some t) c).1.head? = some tid
    ∧ (orderResultsByType (some pe) (some tid) (some t) c).1.Nodup
    ∧ (∃ n1 n2 n3,
        (orderResultsByType (some pe) (some tid) (some t) c).1
            = tid :: (n1 ++ n2 ++ n3)
        ∧ n1.Sublist (specRotation t c).1
        ∧ n2.Sublist (specRotation t c).2.1
        ∧ n3.Sublist (specRotation t c).2.2)
    ∧ (∀ k, k ∈ (orderResultsByType (some pe) (some tid) (some t) c).1 ↔
        k = tid ∨ k ∈ recKeys c.building ∨ k ∈ recKeys c.city
          ∨ k ∈ recKeys c.country) := by
  have hkeys := orderResultsByType_keys_recognized pe tid htid t c ht
  obtain ⟨n1, h1, hs1⟩ := dedupAppend_eq_append (specRotation t c).1 [tid]
  obtain ⟨n2, h2, hs2⟩ := dedupAppend_eq_append (specRotation t c).2.1 ([tid] ++ n1)
  obtain ⟨n3, h3, hs3⟩ :=
    dedupAppend_eq_append (specRotation t c).2.2 (([tid] ++ n1) ++ n2)
  have hdecomp : (orderResultsByType (some pe) (some tid) (some t) c).1
      = tid :: (n1 ++ n2 ++ n3) := by
    rw [hkeys, h1, h2, h3]
    simp [List.append_assoc]
  refine ⟨?_, ?_, ⟨n1, n2, n3, hdecomp, hs1, hs2, hs3⟩, ?_⟩
  · rw [hdecomp]
    rfl
  · exact nodup_orderResultsByType _ _ _ _
  · intro k
    rw [hkeys, mem_dedupAppend, mem_dedupAppend, mem_dedupAppend]
    have hrot : ((k ∈ (specRotation t c).1 ∨ k ∈ (specRotation t c).2.1
        ∨ k ∈ (specRotation t c).2.2) ↔
        (k ∈ recKeys c.building ∨ k ∈ recKeys c.city ∨ k ∈ recKeys c.country)) := by
      rcases ht with h | h | h <;> subst h <;>
        simp [specRotation, mem_jsObjectKeys] <;> tauto
    simp only [List.mem_singleton]
    tauto

/-- Witness for C3: the country anchor `A` over concrete buckets keeps the
rotation `[country, city, building]` with no duplicate keys. -/
theorem spec_C3_witness :
    (orderResultsByType (some peW) (some "A") (some "country") catsW).1.head?
        = some "A"
    ∧ (orderResultsByType (some peW) (some "A") (some "country") catsW).1.Nodup
    ∧ (∃ n1 n2 n3,
        (orderResultsByType (some peW) (some "A") (some "country") catsW).1
            = "A" :: (n1 ++ n2 ++ n3)
        ∧ n1.Sublist (specRotation "country" catsW).1
        ∧ n2.Sublist (specRotation "country" catsW).2.1
        ∧ n3.Sublist (specRotation "country" catsW).2.2)
    ∧ (∀ k, k ∈ (orderResultsByType (some peW) (some "A") (some "country") catsW).1 ↔
        k = "A" ∨ k ∈ recKeys catsW.building ∨ k ∈ recKeys catsW.city
          ∨ k ∈ recKeys catsW.country) :=
  spec_C3 peW "A" "country" catsW (by decide) (Or.inr (Or.inl rfl))

/-- C7: for a standard getAllData call with a positive limit, skip and limit
slice the raw entity list the store returned, before ownership filtering and
decoding: totalCount is the length of that unfiltered list, the data page
holds at most limit entries, and every key of the page comes from an entity
inside the sliced window of the unfiltered list. -/
theorem spec_C7 (env : ServiceEnv) (p : SearchParams) (cache : Cache)
    (l : Int) (hl : p.limit = some l) (hl0 : 0 < l) :
    (performStandardSearch env p cache).1.totalCount
        = (env.client.queryEntities (standardQueryOf p)).length
    ∧ (performStandardSearch env p cache).1.data.length ≤ l.toNat
    ∧ (∀ k ∈ recKeys (performStandardSearch env p cache).1.data,
        ∃ e ∈ applySkipAndLimit (fun _ => true)
            (env.client.queryEntities (standardQueryOf p)) p.skip p.limit none,
          e ∈ env.client.queryEntities (standardQueryOf p)
          ∧ ∃ pe : ProcessedEntity,
              (processEntityForMultiple env p.sysCategory cache e).1 = some pe
              ∧ pe.tokenId = k) := by
  refine ⟨rfl, ?_, ?_⟩
  · have hlen : (performStandardSearch env p cache).1.data.length
        ≤ (applySkipAndLimit (fun _ => true)
            (env.client.queryEntities (standardQueryOf p)) p.skip p.limit none).length := by
      unfold performStandardSearch
      dsimp only
      calc (buildResultsRecord (processMany env p.sysCategory cache
              (applySkipAndLimit (fun _ => true)
                (env.client.queryEntities (standardQueryOf p)) p.skip p.limit none)).1).length
          ≤ (processMany env p.sysCategory cache
              (applySkipAndLimit (fun _ => true)
                (env.client.queryEntities (standardQueryOf p)) p.skip p.limit none)).1.length :=
            length_buildResultsRecord _
        _ = _ := processMany_length env p.sysCategory _ cache
    calc (performStandardSearch env p cache).1.data.length
        ≤ _ := hlen
      _ ≤ l.toNat := by
          rw [hl]
          exact length_applySkipAndLimit_le _ _ _ _ hl0
  · intro k hk
    have hk' : k ∈ recKeys (buildResultsRecord (processMany env p.sysCategory cache
        (applySkipAndLimit (fun _ => true)
          (env.client.queryEntities (standardQueryOf p)) p.skip p.limit none)).1) := hk
    obtain ⟨pe, hpe, hkid⟩ := mem_keys_buildResultsRecord _ k hk'
    obtain ⟨e, he, hre⟩ := processMany_mem env p.sysCategory _ cache _ hpe
    refine ⟨e, he, ?_, pe, hre.symm, hkid⟩
    exact (applySkipAndLimit_none_sublist _ _ _ _).subset he

/-- Witness for C7: a store of two entities with limit 1 reports totalCount 2
while the page holds at most one entry, keyed from the sliced window. -/
theorem spec_C7_witness :
    (performStandardSearch envC7 pC7 []).1.totalCount
        = (envC7.client.queryEntities (standardQueryOf pC7)).length
    ∧ (performStandardSearch envC7 pC7 []).1.data.length ≤ (1 : Int).toNat
    ∧ (∀ k ∈ recKeys (performStandardSearch envC7 pC7 []).1.data,
        ∃ e ∈ applySkipAndLimit (fun _ => true)
            (envC7.client.queryEntities (standardQueryOf pC7)) pC7.skip pC7.limit none,
          e ∈ envC7.client.queryEntities (standardQueryOf pC7)
          ∧ ∃ pe : ProcessedEntity,
              (processEntityForMultiple envC7 pC7.sysCategory [] e).1 = some pe
              ∧ pe.tokenId = k) :=
  spec_C7 envC7 pC7 [] 1 rfl (by decide)

theorem performAdvancedSearch_eq (env : ServiceEnv) (p : SearchParams)
    (cache : Cache) (firstInfo : EntityInfo)
    (hne : (advInitialEntities env p).length ≠ 0)
    (hsel : selectPriorityEntity ((advInitialEntities env p).map
        (extractInfoFor env p.sysCategory)) = some firstInfo) :
    performAdvancedSearch env p cache =
      (if (advOrderedFor env p cache firstInfo).1.1.length = 0 then
        ({ data := [], totalCount := 0 }, (advOrderedFor env p cache firstInfo).2)
      else
        ({ data := buildFinalResults (advOrderedFor env p cache firstInfo).1.2
              (applySkipAndLimit (fun s => s ≠ "")
                (advOrderedFor env p cache firstInfo).1.1 p.skip p.limit none)
           totalCount := (advOrderedFor env p cache firstInfo).1.1.length
           referenceId := firstInfo.tokenId
           referenceType := firstInfo.attrType },
         (advOrderedFor env p cache firstInfo).2)) := by
  unfold performAdvancedSearch
  dsimp only
  rw [if_neg hne, hsel]

theorem nodup_advOrderedFor (env : ServiceEnv) (p : SearchParams)
    (cache : Cache) (fi : EntityInfo) :
    ((advOrderedFor env p cache fi).1.1).Nodup := by
  unfold advOrderedFor
  dsimp only
  exact nodup_orderResultsByType _ _ _ _

/-- C1 counterexample: an advanced search whose ordered key list is
`[A(anchor), B]` with skip 1 and limit 1 returns the page `{B}`: the anchor
`A` is reported as referenceId but is absent from the returned data, because
performAdvancedSearch passes no required item to applySkipAndLimit. -/
theorem spec_C1_counterexample :
    (performAdvancedSearch envC1 pC1 []).1.referenceId = some "A"
    ∧ (performAdvancedSearch envC1 pC1 []).1.totalCount = 2
    ∧ recKeys (performAdvancedSearch envC1 pC1 []).1.data = ["B"]
    ∧ "A" ∉ recKeys (performAdvancedSearch envC1 pC1 []).1.data := by decide

/-- C1 amended: performAdvancedSearch paginates the ordered key list with no
required item, so the page is exactly the plain slice `[skip, skip+limit)` of
the ordered key list and no force-inclusion of the anchor happens; the
eviction mechanism does exist in applySkipAndLimit, but only when a required
item is supplied, which the advanced path never does. -/
theorem spec_C1_amended (env : ServiceEnv) (p : SearchParams) (cache : Cache)
    (firstInfo : EntityInfo)
    (hne : (advInitialEntities env p).length ≠ 0)
    (hsel : selectPriorityEntity ((advInitialEntities env p).map
        (extractInfoFor env p.sysCategory)) = some firstInfo)
    (hkeys : (advOrderedFor env p cache firstInfo).1.1.length ≠ 0) :
    recKeys (performAdvancedSearch env p cache).1.data
      = applySkipAndLimit (fun s => s ≠ "")
          (advOrderedFor env p cache firstInfo).1.1 p.skip p.limit none
    ∧ applySkipAndLimit (fun s => s ≠ "")
          (advOrderedFor env p cache firstInfo).1.1 p.skip p.limit none
        = jsSlice (advOrderedFor env p cache firstInfo).1.1 (max 0 p.skip).toNat
            (match p.limit with
              | some l => if l > 0 then some ((max 0 p.skip).toNat + l.toNat) else none
              | none => none)
    ∧ (∀ (tT : String → Bool) (items : List String) (skip l : Int) (r : String),
        0 < l → tT r = true →
        r ∉ applySkipAndLimit tT items skip (some l) none →
        (applySkipAndLimit tT items skip (some l) none).length = l.toNat →
        applySkipAndLimit tT items skip (some l) (some r)
          = (applySkipAndLimit tT items skip (some l) none).dropLast ++ [r]) := by
  refine ⟨?_, rfl, ?_⟩
  · rw [performAdvancedSearch_eq env p cache firstInfo hne hsel, if_neg hkeys]
    exact recKeys_buildFinalResults _ _
      (List.Nodup.sublist (applySkipAndLimit_none_sublist _ _ _ _)
        (nodup_advOrderedFor env p cache firstInfo))
  · intro tT items skip l r hl htr hnm hlen
    have hstop : applySkipAndLimit tT items skip (some l) none
        = jsSlice items (max 0 skip).toNat (some ((max 0 skip).toNat + l.toNat)) := by
      unfold applySkipAndLimit
      dsimp only
      rw [if_pos (show l > 0 from hl)]
    have hcond : tT r = true ∧ r ∉ jsSlice items (max 0 skip).toNat
        (some ((max 0 skip).toNat + l.toNat)) := ⟨htr, hstop ▸ hnm⟩
    have hlen2 : (jsSlice items (max 0 skip).toNat
        (some ((max 0 skip).toNat + l.toNat))).length = l.toNat := by
      rw [hstop] at hlen
      exact hlen
    simp only [applySkipAndLimit]
    rw [if_pos (show l > 0 from hl)]
    rw [if_pos hcond, if_pos ⟨by omega, by rw [hlen2]; omega⟩]

/-- Witness for C1's amended theorem at the concrete counterexample store. -/
theorem spec_C1_amended_witness :
    recKeys (performAdvancedSearch envC1 pC1 []).1.data
      = applySkipAndLimit (fun s => s ≠ "")
          (advOrderedFor envC1 pC1 [] infoC1).1.1 pC1.skip pC1.limit none
    ∧ applySkipAndLimit (fun s => s ≠ "")
          (advOrderedFor envC1 pC1 [] infoC1).1.1 pC1.skip pC1.limit none
        = jsSlice (advOrderedFor envC1 pC1 [] infoC1).1.1 (max 0 pC1.skip).toNat
            (match pC1.limit with
              | some l => if l > 0 then some ((max 0 pC1.skip).toNat + l.toNat) else none
              | none => none)
    ∧ (∀ (tT : String → Bool) (items : List String) (skip l : Int) (r : String),
        0 < l → tT r = true →
        r ∉ applySkipAndLimit tT items skip (some l) none →
        (applySkipAndLimit tT items skip (some l) none).length = l.toNat →
        applySkipAndLimit tT items skip (some l) (some r)
          = (applySkipAndLimit tT items skip (some l) none).dropLast ++ [r]) :=
  spec_C1_amended envC1 pC1 [] infoC1 (by decide) (by decide) (by decide)

/-- C2 counterexample: an advanced search whose anchor has the unrecognized
type `"village"` but decodes successfully returns the anchor itself —
`{data: {V: …}, totalCount: 1}` — not the empty result the claim requires. -/
theorem spec_C2_counterexample :
    (performAdvancedSearch envC2 pC2 []).1.totalCount = 1
    ∧ recKeys (performAdvancedSearch envC2 pC2 []).1.data = ["V"]
    ∧ ¬ (recKeys (performAdvancedSearch envC2 pC2 []).1.data = []
        ∧ (performAdvancedSearch envC2 pC2 []).1.totalCount = 0) := by decide

/-- C2 amended: when the anchor's derived type is none of country, city or
building, no related-entity query is built or issued; the run returns the
empty result `{data:{}, totalCount:0}` exactly when the anchor's tokenId is
falsy, its own processing failed, or its type is an inherited
`Object.prototype` member name (where the rotation lookup yields a truthy
non-iterable, the iteration throws a TypeError, and getAllData's catch turns
it into the empty result); in every other case the page contains exactly the
anchor's entry, subject to skip/limit, with totalCount 1. -/
theorem spec_C2_amended (env : ServiceEnv) (p : SearchParams) (cache : Cache)
    (firstInfo : EntityInfo) (t : String)
    (hne : (advInitialEntities env p).length ≠ 0)
    (hsel : selectPriorityEntity ((advInitialEntities env p).map
        (extractInfoFor env p.sysCategory)) = some firstInfo)
    (ht : firstInfo.attrType = some t)
    (h1 : t ≠ "building") (h2 : t ≠ "country") (h3 : t ≠ "city") :
    relatedQueryFor p.sysCategory firstInfo = none
    ∧ fetchRelatedEntities env p.sysCategory firstInfo = []
    ∧ (((performAdvancedSearch env p cache).1.data = []
          ∧ (performAdvancedSearch env p cache).1.totalCount = 0)
        ↔ (jsTruthyS firstInfo.tokenId = false
            ∨ (processEntityForMultiple env p.sysCategory cache
                firstInfo.entity).1 = none
            ∨ t ∈ OBJECT_PROTO_KEYS))
    ∧ (∀ tid pe, firstInfo.tokenId = some tid → tid ≠ "" →
        (processEntityForMultiple env p.sysCategory cache firstInfo.entity).1
            = some pe →
        t ∉ OBJECT_PROTO_KEYS →
        (performAdvancedSearch env p cache).1.totalCount = 1
        ∧ recKeys (performAdvancedSearch env p cache).1.data
            = applySkipAndLimit (fun s => s ≠ "") [tid] p.skip p.limit none) := by
  have hrq : relatedQueryFor p.sysCategory firstInfo = none := by
    unfold relatedQueryFor
    rw [ht]
    dsimp only
    rw [if_neg h1, if_neg h2, if_neg h3]
  have hfr : fetchRelatedEntities env p.sysCategory firstInfo = [] := by
    unfold fetchRelatedEntities
    rw [hrq]
  have hadv0 : advOrderedFor env p cache firstInfo
      = (orderResultsByType
          (processEntityForMultiple env p.sysCategory cache firstInfo.entity).1
          firstInfo.tokenId firstInfo.attrType
          { building := [], city := [], country := [] },
         (processEntityForMultiple env p.sysCategory cache firstInfo.entity).2) := by
    unfold advOrderedFor
    dsimp only
    rw [hfr]
    rw [show categorizeEntitiesByType env p.sysCategory cache []
        = ({ building := [], city := [], country := [] }, cache) from rfl]
  have hpos : ∀ tid pe, firstInfo.tokenId = some tid → tid ≠ "" →
      (processEntityForMultiple env p.sysCategory cache firstInfo.entity).1
          = some pe →
      t ∉ OBJECT_PROTO_KEYS →
      (performAdvancedSearch env p cache).1.totalCount = 1
      ∧ recKeys (performAdvancedSearch env p cache).1.data
          = applySkipAndLimit (fun s => s ≠ "") [tid] p.skip p.limit none := by
    intro tid pe htid htid0 hfd hproto
    have hkeys : (advOrderedFor env p cache firstInfo).1.1 = [tid] := by
      rw [hadv0]
      dsimp only
      rw [ht, orderResultsByType_unrecognized _ _ _ _ h1 h2 h3 hproto, htid, hfd]
      unfold initPair
      dsimp only
      rw [if_neg htid0]
    constructor
    · rw [performAdvancedSearch_eq env p cache firstInfo hne hsel,
        if_neg (by rw [hkeys]; simp)]
      dsimp only
      rw [hkeys]
      rfl
    · rw [performAdvancedSearch_eq env p cache firstInfo hne hsel,
        if_neg (by rw [hkeys]; simp)]
      dsimp only
      rw [hkeys]
      exact recKeys_buildFinalResults _ _
        (List.Nodup.sublist (applySkipAndLimit_none_sublist _ _ _ _)
          (List.nodup_singleton tid))
  refine ⟨hrq, hfr, ?_, hpos⟩
  by_cases hproto : t ∈ OBJECT_PROTO_KEYS
  · have hemp : (advOrderedFor env p cache firstInfo).1.1 = [] := by
      rw [hadv0]
      dsimp only
      rw [ht, orderResultsByType_inherited _ _ _ _ hproto]
    rw [performAdvancedSearch_eq env p cache firstInfo hne hsel,
      if_pos (by rw [hemp]; rfl)]
    exact ⟨fun _ => Or.inr (Or.inr hproto), fun _ => ⟨rfl, rfl⟩⟩
  · have hun : (advOrderedFor env p cache firstInfo).1.1
        = (initPair (processEntityForMultiple env p.sysCategory cache
            firstInfo.entity).1 firstInfo.tokenId).1 := by
      rw [hadv0]
      dsimp only
      rw [ht, orderResultsByType_unrecognized _ _ _ _ h1 h2 h3 hproto]
    rcases htid : firstInfo.tokenId with _ | tid
    · have hemp : (advOrderedFor env p cache firstInfo).1.1 = [] := by
        rw [hun, htid]
        rcases (processEntityForMultiple env p.sysCategory cache
          firstInfo.entity).1 with _ | pe <;> rfl
      rw [performAdvancedSearch_eq env p cache firstInfo hne hsel,
        if_pos (by rw [hemp]; rfl)]
      exact ⟨fun _ => Or.inl rfl, fun _ => ⟨rfl, rfl⟩⟩
    · rcases hfd : (processEntityForMultiple env p.sysCategory cache
          firstInfo.entity).1 with _ | pe
      · have hemp : (advOrderedFor env p cache firstInfo).1.1 = [] := by
          rw [hun, htid, hfd]
          rfl
        rw [performAdvancedSearch_eq env p cache firstInfo hne hsel,
          if_pos (by rw [hemp]; rfl)]
        exact ⟨fun _ => Or.inr (Or.inl rfl), fun _ => ⟨rfl, rfl⟩⟩
      · by_cases htid0 : tid = ""
        · have hemp : (advOrderedFor env p cache firstInfo).1.1 = [] := by
            rw [hun, htid, hfd]
            unfold initPair
            dsimp only
            rw [if_pos htid0]
          rw [performAdvancedSearch_eq env p cache firstInfo hne hsel,
            if_pos (by rw [hemp]; rfl)]
          refine ⟨fun _ => Or.inl ?_, fun _ => ⟨rfl, rfl⟩⟩
          simp [jsTruthyS, htid0]
        · have hkeys : (advOrderedFor env p cache firstInfo).1.1 = [tid] := by
            rw [hun, htid, hfd]
            unfold initPair
            dsimp only
            rw [if_neg htid0]
          rw [performAdvancedSearch_eq env p cache firstInfo hne hsel,
            if_neg (by rw [hkeys]; simp)]
          dsimp only
          refine iff_of_false ?_ ?_
          · rintro ⟨_, hc⟩
            rw [hkeys] at hc
            simp at hc
          · rintro (h | h | h)
            · simp [jsTruthyS] at h
              exact htid0 h
            · exact Option.noConfusion h
            · exact hproto h

/-- Witness for C2's amended theorem at the concrete village-anchor store:
the anchor's tokenId is truthy, its processing succeeds and "village" is no
prototype member, so the result is the anchor page with totalCount 1. -/
theorem spec_C2_amended_witness :
    relatedQueryFor pC2.sysCategory infoC2 = none
    ∧ fetchRelatedEntities envC2 pC2.sysCategory infoC2 = []
    ∧ (((performAdvancedSearch envC2 pC2 []).1.data = []
          ∧ (performAdvancedSearch envC2 pC2 []).1.totalCount = 0)
        ↔ (jsTruthyS infoC2.tokenId = false
            ∨ (processEntityForMultiple envC2 pC2.sysCategory []
                infoC2.entity).1 = none
            ∨ "village" ∈ OBJECT_PROTO_KEYS))
    ∧ (∀ tid pe, infoC2.tokenId = some tid → tid ≠ "" →
        (processEntityForMultiple envC2 pC2.sysCategory [] infoC2.entity).1
            = some pe →
        "village" ∉ OBJECT_PROTO_KEYS →
        (performAdvancedSearch envC2 pC2 []).1.totalCount = 1
        ∧ recKeys (performAdvancedSearch envC2 pC2 []).1.data
            = applySkipAndLimit (fun s => s ≠ "") [tid] pC2.skip pC2.limit none) :=
  spec_C2_amended envC2 pC2 [] infoC2 "village" (by decide) (by decide) rfl
    (by decide) (by decide) (by decide)

end RealityNFT
